import Mathlib

/-!
Verification of the Mermaid Office add-in's diagram lifecycle engine.

A shallow embedding, in Lean 4, of the diagram identity & lifecycle
reconciliation engine of the Mermaid PowerPoint/Word add-in
(`src/unnamed/part_001` of the repository).  JavaScript strings are
modelled as `List Char`, JavaScript numbers as `ℚ` (exact rational
arithmetic standing in for IEEE doubles), fallible operations as
`Option`/`Except`, and the host's custom-XML-part store as an explicit
list threaded through each operation.  Host primitives that the add-in
merely calls (DOMParser, canvas, `Office.context`) are modelled at their
interface: DOMParser results as structured values, canvas painting as an
explicit operation trace, and host API availability as boolean
parameters.
-/

/-! ## String scanning primitives

Models of the JavaScript string operations the source uses:
`String.prototype.includes` and the literal-wildcard-literal regular
expressions (`.match(/<Code><!\[CDATA\[([\s\S]*?)\]\]><\/Code>/)` style)
are all expressed through a first-occurrence splitter. -/

/-- If `needle` is a prefix of `hay`, return the remainder of `hay` after it. -/
def dropPrefix? : List Char → List Char → Option (List Char)
  | [], hay => some hay
  | _ :: _, [] => none
  | n :: ns, h :: hs => if n = h then dropPrefix? ns hs else none

/-- Split `hay` at the first occurrence of `needle`: returns the part before
the occurrence and the part after it.  `none` if `needle` never occurs.
This is the semantics of a leftmost regex match of a literal. -/
def splitFirst : List Char → List Char → Option (List Char × List Char)
  | [], needle => (dropPrefix? needle []).map (fun rest => ([], rest))
  | c :: t, needle =>
    match dropPrefix? needle (c :: t) with
    | some rest => some ([], rest)
    | none => (splitFirst t needle).map (fun p => (c :: p.1, p.2))

/-- Model of JavaScript `hay.includes(needle)`. -/
def containsSub (hay needle : List Char) : Bool :=
  (splitFirst hay needle).isSome

/-- A segment `seg` "blocks" `needle` when no occurrence of `needle` can start
inside `seg`, regardless of what text follows `seg`: no suffix of `seg` agrees
with `needle` on their common length. -/
def Blocks (seg needle : List Char) : Prop :=
  ∀ k, k < seg.length → ¬ (seg.drop k <+: needle ∨ needle <+: seg.drop k)

instance (seg needle : List Char) : Decidable (Blocks seg needle) :=
  Nat.decidableBallLT _ _

/-- `needle` has no nontrivial border: no proper nonempty suffix of it is also
one of its prefixes.  For such needles an occurrence cannot straddle the
boundary between a text known not to contain the needle and the needle
itself. -/
def BorderFree (needle : List Char) : Prop :=
  ∀ j, j < needle.length → 0 < j → ¬ (needle.drop j <+: needle)

instance (needle : List Char) : Decidable (BorderFree needle) :=
  Nat.decidableBallLT _ _

/-! ## Word metadata store (`WordInserter`, `src/unnamed/part_001`)

`WordInserter.storeDiagramMetadata` (lines 1479–1512) serializes a diagram
record into a custom XML part by string interpolation, embedding the source
code verbatim inside a `<![CDATA[...]]>` wrapper; the read path
(`WordInserter.getSelectedDiagram`, lines 1341–1398) scans all parts with
`String.prototype.includes` and extracts the code with the regex
`/<Code><!\[CDATA\[([\s\S]*?)\]\]><\/Code>/`.  The store is the list of
custom-XML-part texts, in document order. -/

namespace WordInserter

def mermaidMarker : List Char := "<MermaidDiagram>".data

def idOpen : List Char := "<Id>".data

def idClose : List Char := "</Id>".data

def codeOpen : List Char := "<Code><![CDATA[".data

def codeClose : List Char := "]]></Code>".data

/-- Fixed text of the XML template before the interpolated id. -/
def xmlHeader : List Char :=
  "<?xml version=\"1.0\" encoding=\"UTF-8\"?>\n<MermaidDiagram>\n  <Id>".data

/-- Fixed text between the interpolated id and the interpolated source code. -/
def afterId : List Char := "</Id>\n  <Code><![CDATA[".data

/-- Fixed text between the interpolated source code and the timestamp. -/
def afterCode : List Char := "]]></Code>\n  <CreatedAt>".data

/-- Fixed text after the interpolated timestamp. -/
def xmlTail : List Char := "</CreatedAt>\n</MermaidDiagram>".data

/-- The XML block built by `WordInserter.storeDiagramMetadata` (lines
1490–1495): plain string interpolation of id, source code, and timestamp. -/
def wordDiagramXml (diagramId mermaidCode createdAt : List Char) : List Char :=
  xmlHeader ++ diagramId ++ afterId ++ mermaidCode ++ afterCode ++ createdAt ++ xmlTail

/-- `WordInserter.storeDiagramMetadata`: `customXmlParts.add(xmlContent)`
appends the serialized record to the document's part collection. -/
def storeDiagramMetadata (parts : List (List Char))
    (diagramId mermaidCode createdAt : List Char) : List (List Char) :=
  parts ++ [wordDiagramXml diagramId mermaidCode createdAt]

/-- Model of `xml.value.match(/<Code><!\[CDATA\[([\s\S]*?)\]\]><\/Code>/)`
(line 1367): leftmost occurrence of the literal opener, then the lazy
wildcard stops at the first occurrence of the literal closer. -/
def extractDiagramCode (xml : List Char) : Option (List Char) :=
  (splitFirst xml codeOpen).bind fun p1 =>
    (splitFirst p1.2 codeClose).map fun p2 => p2.1

/-- The metadata scan of `WordInserter.getSelectedDiagram` (lines 1348–1392):
for each part, if its text includes `<MermaidDiagram>` and `<Id>…</Id>` for
the requested id, try the CDATA regex; on a regex miss the loop continues to
the next part; if no part yields a match the function returns null. -/
def findDiagramCode (diagramId : List Char) : List (List Char) → Option (List Char)
  | [] => none
  | p :: rest =>
    if containsSub p mermaidMarker && containsSub p (idOpen ++ diagramId ++ idClose) then
      match extractDiagramCode p with
      | some c => some c
      | none => findDiagramCode diagramId rest
    else findDiagramCode diagramId rest

/-- Characters produced by `generateId` (line 925:
`'mermaid-' + Math.random().toString(36).substr(2, 9)`): base-36
alphanumerics and the hyphen. -/
def SafeIdChar (c : Char) : Prop := c.isAlphanum = true ∨ c = '-'

instance (c : Char) : Decidable (SafeIdChar c) := by
  unfold SafeIdChar
  infer_instance

/-- Fixed header text up to (excluding) the `<Id>` opener. -/
def headerPre : List Char :=
  "<?xml version=\"1.0\" encoding=\"UTF-8\"?>\n<MermaidDiagram>\n  ".data

/-- Fixed text between `</Id>` and the `<Code><![CDATA[` opener. -/
def beforeCode : List Char := "</Id>\n  ".data

/-- Fixed text between `]]></Code>` and the timestamp. -/
def createdLead : List Char := "\n  <CreatedAt>".data

end WordInserter

/-! ## PowerPoint metadata store (`src/unnamed/part_001`, top-level functions)

The PowerPoint paths read parts through `DOMParser` +
`querySelector('Id')`/`querySelector('Code')`.  A part is modelled at the
DOMParser interface: either `foreign` (the XML fails to parse, `getXml`
throws, or the document has no `Id` element — all of which the code skips
via `try { … } catch { continue }` or the `idElement` null-check), or a
parsed Mermaid record with its `Id` text and optional `Code`,
`ShapeTagged`, `CreatedAt`, `UpdatedAt` elements. -/

namespace Ppt

/-- A custom XML part as seen through DOMParser. -/
inductive PpXmlPart where
  | foreign
  | record (id : String) (code : Option String) (shapeTagged : Option Bool)
      (createdAt updatedAt : Option String)
deriving DecidableEq, Repr

/-- `DiagramData` (lines 928–931). -/
structure DiagramData where
  id : String
  code : String
deriving DecidableEq, Repr

/-- Does a part's parsed `Id` element match the requested id?  This is
`updateDiagramData`'s per-part test (lines 2030–2034):
`idElement && idElement.textContent === diagramId`. -/
def partIdMatches : PpXmlPart → String → Bool
  | .foreign, _ => false
  | .record id' _ _ _ _, id => id' == id

/-- The scan-and-delete loop of `updateDiagramData` (lines 2023–2054): find
the first part whose `Id` matches, delete it (`xmlPart.delete()`), and
return the remaining parts; `none` if no part matches. -/
def updateLoop (diagramId : String) : List PpXmlPart → Option (List PpXmlPart)
  | [] => none
  | p :: rest =>
    if partIdMatches p diagramId then some rest
    else (updateLoop diagramId rest).map (fun l => p :: l)

/-- `updateDiagramData` (lines 2015–2058): delete the first matching part and
append a freshly built replacement whose XML template hard-codes
`<ShapeTagged>true</ShapeTagged>` and carries `UpdatedAt` but no
`CreatedAt`; if no part matches, throw
`'Diagram data not found for update'` leaving the part collection as it
was.  Returns the error-or-unit outcome together with the resulting store. -/
def updateDiagramData (parts : List PpXmlPart) (diagramId mermaidCode now : String) :
    Except String Unit × List PpXmlPart :=
  match updateLoop diagramId parts with
  | some remaining =>
    (Except.ok (),
      remaining ++ [PpXmlPart.record diagramId (some mermaidCode) (some true) none (some now)])
  | none => (Except.error "Diagram data not found for update", parts)

/-- A PowerPoint shape at the interface the recovery path uses: its key/value
tags.  (`getSelectedDiagram` reads nothing else from a shape.) -/
structure PpShape where
  tags : List (String × String)
deriving DecidableEq, Repr

/-- The selection state `getSelectedDiagram` observes:
`getSelectedShapes().items` and, per selected slide, that slide's shape list
(in creation order, so the "most recently added" shape is the last). -/
structure PpSelection where
  selectedShapes : List PpShape
  slides : List (List PpShape)
deriving DecidableEq, Repr

/-- The metadata scan of `getSelectedDiagram` (lines 2973–3003): first part
whose parsed `Id` matches and which has a `Code` element; parts that fail to
parse or lack either element are skipped. -/
def lookupPart : List PpXmlPart → String → Option DiagramData
  | [], _ => none
  | .foreign :: rest, id => lookupPart rest id
  | .record id' code _ _ _ :: rest, id =>
    match code with
    | some c => if id' == id then some ⟨id, c⟩ else lookupPart rest id
    | none => lookupPart rest id

/-- The tag scan of `getSelectedDiagram` (lines 2950–2970): value of the
first tag whose lowercased key (`key.toLowerCase()`, modelled per character)
is `mermaid_diagram_id`; the empty string (the JS initialization value) when
there is none. -/
def findDiagramTag (s : PpShape) : String :=
  match s.tags.find? (fun t => t.1.data.map Char.toLower == "mermaid_diagram_id".data) with
  | some t => t.2
  | none => ""

/-- The per-shape recovery tail of `getSelectedDiagram` (lines 2950–3006):
look up the tag; if it is non-empty (JS truthiness of `diagramId`), resolve
it against the store; otherwise, and on a failed resolution, return null. -/
def recoverFromShape (shape : PpShape) (parts : List PpXmlPart) : Option DiagramData :=
  let diagramId := findDiagramTag shape
  if diagramId ≠ "" then lookupPart parts diagramId
  else none

/-- `getSelectedDiagram` (lines 2894–3008).  Exactly one selected shape:
recover from it.  More than one: return null immediately.  None: fall back
to the last (most recently added) shape of the first selected slide, and
recover from that; null when there is no slide or the slide has no
shapes. -/
def getSelectedDiagram (sel : PpSelection) (parts : List PpXmlPart) : Option DiagramData :=
  match sel.selectedShapes with
  | [s] => recoverFromShape s parts
  | _ :: _ :: _ => none
  | [] =>
    match sel.slides with
    | slide :: _ =>
      match slide.getLast? with
      | some shape => recoverFromShape shape parts
      | none => none
    | [] => none

end Ppt

/-! ## Geometry planner and raster conversion (`WordInserter`)

JavaScript numbers are modelled as exact rationals; `Math.round x` is
`⌊x + 1/2⌋` (round half toward positive infinity). -/

/-- JavaScript `Math.round`. -/
def jsRound (q : ℚ) : ℤ := ⌊q + 1 / 2⌋

namespace WordInserter

/-- `WordInserter.calculateOptimalDiagramSize` (lines 1632–1677) before its
final `Math.round` of the two axes: subtract margins, compare aspect ratios,
fit to the constrained axis, and apply the 144-point minimum-size floor only
when both axes came out below it. -/
def calculateOptimalDiagramSizeRaw (svgWidth svgHeight pageWidth pageHeight
    marginLeft marginRight marginTop marginBottom : ℚ) : ℚ × ℚ :=
  let availableWidth := pageWidth - marginLeft - marginRight
  let availableHeight := pageHeight - marginTop - marginBottom
  let svgAspectRatio := svgWidth / svgHeight
  let availableAspectRatio := availableWidth / availableHeight
  let fitted : ℚ × ℚ :=
    if availableAspectRatio < svgAspectRatio then
      (availableWidth, availableWidth / svgAspectRatio)
    else
      (availableHeight * svgAspectRatio, availableHeight)
  let minSize : ℚ := 144
  if fitted.1 < minSize ∧ fitted.2 < minSize then
    if 1 < svgAspectRatio then (minSize, minSize / svgAspectRatio)
    else (minSize * svgAspectRatio, minSize)
  else fitted

/-- `WordInserter.calculateOptimalDiagramSize` including the final
`Math.round` of both axes (lines 1673–1676). -/
def calculateOptimalDiagramSize (svgWidth svgHeight pageWidth pageHeight
    marginLeft marginRight marginTop marginBottom : ℚ) : ℤ × ℤ :=
  let raw := calculateOptimalDiagramSizeRaw svgWidth svgHeight pageWidth pageHeight
    marginLeft marginRight marginTop marginBottom
  (jsRound raw.1, jsRound raw.2)

end WordInserter

/-- A canvas-2D operation, as issued by `convertSvgToPngForWord`'s onload
handler: the opaque-white background fill and the scaled vector draw, each
with its destination rectangle in canvas pixels. -/
inductive CanvasOp where
  | fillWhiteRect (x y w h : ℤ)
  | drawImage (x y w h : ℤ)
deriving DecidableEq, Repr

/-- The result of `convertSvgToPngForWord`: canvas pixel dimensions and the
ordered trace of canvas operations (the PNG bytes themselves are the
platform's business). -/
structure PngConversion where
  width : ℤ
  height : ℤ
  ops : List CanvasOp
deriving DecidableEq, Repr

namespace WordInserter

/-- `WordInserter.convertSvgToPngForWord` (lines 1514–1596), fixed-DPI mode:
canvas pixel size is `Math.round(target × 300/72)` on each axis — computed
from the target display size only — the canvas is filled opaque white
(`fillRect`) before the vector image is drawn (`drawImage`), both over the
full canvas.  (The handler also parses the markup's viewBox, but uses the
result only for logging; decoding/encoding failures reject the promise and
are out of this pure model.) -/
def convertSvgToPngForWord (_svgString : List Char)
    (targetDisplayWidth targetDisplayHeight : ℚ) : PngConversion :=
  let pixelsPerPoint : ℚ := 300 / 72
  let canvasWidth : ℤ := jsRound (targetDisplayWidth * pixelsPerPoint)
  let canvasHeight : ℤ := jsRound (targetDisplayHeight * pixelsPerPoint)
  { width := canvasWidth
    height := canvasHeight
    ops := [CanvasOp.fillWhiteRect 0 0 canvasWidth canvasHeight,
            CanvasOp.drawImage 0 0 canvasWidth canvasHeight] }

end WordInserter

/-- `shapesApproximatelyMatch` (lines 3060–3104) after its
comma-split/parseFloat decoding of the two descriptor strings: four numbers
each (a descriptor list of any other length never matches); position must
agree within ±5 on both axes, and each size ratio (smaller over larger) must
be at least `1 - 0.5`. -/
def shapesApproximatelyMatch (parts1 parts2 : List ℚ) : Bool :=
  match parts1, parts2 with
  | [left1, top1, width1, height1], [left2, top2, width2, height2] =>
    if |left1 - left2| ≤ 5 ∧ |top1 - top2| ≤ 5 then
      decide (min width1 width2 / max width1 width2 ≥ 1 - 1 / 2
        ∧ min height1 height2 / max height1 height2 ≥ 1 - 1 / 2)
    else false
  | _, _ => false

/-- JavaScript whitespace (`\s` / `String.prototype.trim`): space, tab, and
the line/page-break controls. -/
def jsWs (c : Char) : Bool :=
  c == ' ' || c == '\t' || c == '\n' || c == '\r' || c == '\x0B' || c == '\x0C'

/-- JavaScript `String.prototype.trim`: strip whitespace from both ends. -/
def jsTrim (l : List Char) : List Char :=
  ((l.dropWhile jsWs).reverse.dropWhile jsWs).reverse

namespace WordInserter

/-- The mutable fields of the `WordInserter` instance relevant to two-phase
insertion (lines 969–973), together with whether a
`DocumentSelectionChanged` handler is currently registered with the host. -/
structure WordInserterState where
  insertionMode : Bool
  pendingInsertion : Option (List Char × List Char)
  handlerRegistered : Bool
deriving DecidableEq, Repr

/-- The outcome `insertDiagram` communicates by throwing: a `SUCCESS:`-prefixed
message (the awaiting-placement signal) or a genuine failure message. -/
inductive InsertOutcome where
  | success (msg : List Char)
  | failure (msg : List Char)
deriving DecidableEq, Repr

/-- `WordInserter.exitInsertionMode` (lines 1072–1100): clear the mode flag
and the pending payload, then remove the selection-changed handler; every
removal outcome is swallowed (`resolve()` on failure, `catch` around the
await), so the call never raises and always lands in the same state. -/
def exitInsertionMode (_s : WordInserterState) : WordInserterState :=
  { insertionMode := false, pendingInsertion := none, handlerRegistered := false }

/-- The awaiting-placement message thrown by `insertDiagram` (line 1188). -/
def awaitPlacementMsg : List Char :=
  "SUCCESS: Click in your document where you want the diagram to be inserted.".data

/-- `WordInserter.insertDiagram` (lines 1162–1197), phase 1: check API
support, validate the markup (non-blank, contains `<svg`), then enter
insertion mode — set the flag and the pending payload, register the
selection-changed handler (its success is the host's business, modelled by
`addHandlerOk`) — and signal awaiting-placement via a `SUCCESS:` throw; a
handler-registration failure is rethrown as `Failed to prepare insertion`. -/
def insertDiagram (apiSupported addHandlerOk : Bool)
    (mermaidCode svgContent : List Char) (s : WordInserterState) :
    WordInserterState × InsertOutcome :=
  if !apiSupported then
    (s, .failure "Word API 1.1 not supported. Please use Microsoft Word 2016 or newer.".data)
  else if (jsTrim svgContent).isEmpty then
    (s, .failure "SVG content is empty or invalid".data)
  else if !(containsSub svgContent "<svg".data) then
    (s, .failure "Content does not appear to be valid SVG".data)
  else
    let s1 : WordInserterState :=
      { insertionMode := true
        pendingInsertion := some (mermaidCode, svgContent)
        handlerRegistered := addHandlerOk }
    if addHandlerOk then (s1, .success awaitPlacementMsg)
    else (s1, .failure "Failed to prepare insertion: Could not enter insertion mode".data)

end WordInserter

/-- Either of the two JavaScript quote characters accepted by the dimension
regexes. -/
def isQuoteChar (c : Char) : Bool := c == '"' || c == '\''

/-- JavaScript `str.split(/\s+/)`: pieces between maximal whitespace runs,
with an empty piece at an end that begins or finishes with whitespace (and
`[""]` for the empty string). -/
def jsSplitWs : List Char → List (List Char)
  | [] => [[]]
  | c :: t =>
    if jsWs c then [] :: jsSplitWs (t.dropWhile jsWs)
    else
      match jsSplitWs t with
      | p :: ps => (c :: p) :: ps
      | [] => [[c]]
termination_by l => l.length
decreasing_by
  · have := (List.dropWhile_sublist (l := t) jsWs).length_le
    simp only [List.length_cons]
    omega
  · simp

/-- Numeric value of a digit run (the digits of a JavaScript decimal
literal). -/
def digitsToNat (l : List Char) : ℕ :=
  l.foldl (fun n c => 10 * n + (c.toNat - 48)) 0

/-- JavaScript `parseFloat`: skip leading whitespace, optional sign, integer
digits, optional fraction, optional exponent; trailing garbage is ignored;
`none` models `NaN` (no digits at all).  (The `Infinity` literals, which a
rational cannot carry, are not modelled.) -/
def jsParseFloat (l : List Char) : Option ℚ :=
  let l1 := l.dropWhile jsWs
  let signWithRest : ℚ × List Char :=
    match l1 with
    | '+' :: t => (1, t)
    | '-' :: t => (-1, t)
    | _ => (1, l1)
  let l2 := signWithRest.2
  let intPart := l2.takeWhile Char.isDigit
  let l3 := l2.dropWhile Char.isDigit
  let fracWithRest : List Char × List Char :=
    match l3 with
    | '.' :: t => (t.takeWhile Char.isDigit, t.dropWhile Char.isDigit)
    | _ => ([], l3)
  let fracPart := fracWithRest.1
  let l4 := fracWithRest.2
  if intPart.isEmpty && fracPart.isEmpty then none
  else
    let mantissa : ℚ :=
      (digitsToNat intPart : ℚ) + (digitsToNat fracPart : ℚ) / (10 : ℚ) ^ fracPart.length
    let exp : ℤ :=
      match l4 with
      | e :: t =>
        if e == 'e' || e == 'E' then
          let esignWithRest : ℤ × List Char :=
            match t with
            | '+' :: u => (1, u)
            | '-' :: u => (-1, u)
            | _ => (1, t)
          let expDigits := esignWithRest.2.takeWhile Char.isDigit
          if expDigits.isEmpty then 0 else esignWithRest.1 * (digitsToNat expDigits : ℤ)
        else 0
      | [] => 0
    some (signWithRest.1 * mantissa * (10 : ℚ) ^ exp)

/-- A match attempt of `/viewBox\s*=\s*["']([^"']+)["']/` at the start of
`l`: the literal `viewBox`, optional whitespace, `=`, optional whitespace, a
quote, then the (greedy, nonempty) run of non-quote characters, terminated
by a quote. -/
def matchViewBoxAt (l : List Char) : Option (List Char) :=
  (dropPrefix? "viewBox".data l).bind fun r1 =>
    match r1.dropWhile jsWs with
    | '=' :: r3 =>
      match r3.dropWhile jsWs with
      | q :: r5 =>
        if isQuoteChar q then
          let content := r5.takeWhile (fun c => !(isQuoteChar c))
          match r5.dropWhile (fun c => !(isQuoteChar c)) with
          | _ :: _ => if content.isEmpty then none else some content
          | [] => none
        else none
      | [] => none
    | _ => none

/-- A match attempt of `/name\s*=\s*["']?([^"'\s>]+)/` at the start of `l`:
the attribute name, optional whitespace, `=`, optional whitespace, an
optional quote, then the (greedy, nonempty) run of characters other than
quotes, whitespace, and `>`. -/
def matchAttrAt (name : List Char) (l : List Char) : Option (List Char) :=
  (dropPrefix? name l).bind fun r1 =>
    match r1.dropWhile jsWs with
    | '=' :: r3 =>
      let r4 := r3.dropWhile jsWs
      let r5 :=
        match r4 with
        | q :: rest => if isQuoteChar q then rest else r4
        | [] => r4
      let content := r5.takeWhile (fun c => !(isQuoteChar c || jsWs c || c == '>'))
      if content.isEmpty then none else some content
    | _ => none

/-- Leftmost-match scanning of a regex modelled by its match-at-position
attempt: try each start position left to right. -/
def scanFor (matchAt : List Char → Option (List Char)) : List Char → Option (List Char)
  | [] => matchAt []
  | c :: t =>
    match matchAt (c :: t) with
    | some r => some r
    | none => scanFor matchAt t

/-- A parsed `{width, height}` dimension record. -/
structure SvgDimensions where
  width : ℚ
  height : ℚ
deriving DecidableEq, Repr

namespace WordInserter

/-- The width/height-attribute fallback of `parseSvgViewBox` (lines
1696–1708): both regexes must match and parse to positive numbers, else the
`{0, 0}` sentinel. -/
def parseSvgWidthHeight (svgString : List Char) : SvgDimensions :=
  match scanFor (matchAttrAt "width".data) svgString,
      scanFor (matchAttrAt "height".data) svgString with
  | some ws, some hs =>
    match jsParseFloat ws, jsParseFloat hs with
    | some w, some h => if 0 < w ∧ 0 < h then ⟨w, h⟩ else ⟨0, 0⟩
    | _, _ => ⟨0, 0⟩
  | _, _ => ⟨0, 0⟩

/-- `WordInserter.parseSvgViewBox` (lines 1679–1717): try the four-number
`viewBox` declaration (third and fourth numbers are the dimensions); on
absence, malformation, or non-positive/non-numeric values fall back to the
explicit width/height attributes; when those fail too, return the `{0, 0}`
sentinel rather than raising. -/
def parseSvgViewBox (svgString : List Char) : SvgDimensions :=
  match scanFor matchViewBoxAt svgString with
  | some vb =>
    match jsSplitWs vb with
    | [_, _, v2, v3] =>
      match jsParseFloat v2, jsParseFloat v3 with
      | some w, some h =>
        if 0 < w ∧ 0 < h then ⟨w, h⟩ else parseSvgWidthHeight svgString
      | _, _ => parseSvgWidthHeight svgString
    | _ => parseSvgWidthHeight svgString
  | none => parseSvgWidthHeight svgString

/-- The `viewBox` attempt alone, as a partial function: the dimensions when
the declaration is present, well-formed (four numbers), numeric, and
positive. -/
def tryViewBoxDims (svgString : List Char) : Option SvgDimensions :=
  match scanFor matchViewBoxAt svgString with
  | some vb =>
    match jsSplitWs vb with
    | [_, _, v2, v3] =>
      match jsParseFloat v2, jsParseFloat v3 with
      | some w, some h => if 0 < w ∧ 0 < h then some ⟨w, h⟩ else none
      | _, _ => none
    | _ => none
  | none => none

/-- The width/height-attribute attempt alone, as a partial function. -/
def tryWidthHeightDims (svgString : List Char) : Option SvgDimensions :=
  match scanFor (matchAttrAt "width".data) svgString,
      scanFor (matchAttrAt "height".data) svgString with
  | some ws, some hs =>
    match jsParseFloat ws, jsParseFloat hs with
    | some w, some h => if 0 < w ∧ 0 < h then some ⟨w, h⟩ else none
    | _, _ => none
  | _, _ => none

end WordInserter

/-- `MermaidSettings` (lines 1767–1778), with each field as the string form
it takes when interpolated into the settings XML template (`fontSize` is a
number and `theme` a closed enumeration in the source; only their printed
forms reach the store). -/
structure MermaidSettings where
  fontFamily : List Char
  fontSize : List Char
  primaryColor : List Char
  primaryTextColor : List Char
  primaryBorderColor : List Char
  lineColor : List Char
  backgroundColor : List Char
  secondaryColor : List Char
  tertiaryColor : List Char
  theme : List Char
deriving DecidableEq, Repr

/-- The root marker the save/load paths scan for. -/
def settingsMarker : List Char := "<MermaidSettings>".data

/-- The settings XML block built by `saveSettings` (lines 3145–3158 and,
identically, 3192–3205): string interpolation of the ten fields and an
`UpdatedAt` timestamp. -/
def settingsXml (s : MermaidSettings) (now : List Char) : List Char :=
  "<?xml version=\"1.0\" encoding=\"UTF-8\"?>\n<MermaidSettings>\n  <FontFamily><![CDATA[".data
  ++ s.fontFamily ++ "]]></FontFamily>\n  <FontSize>".data
  ++ s.fontSize ++ "</FontSize>\n  <PrimaryColor>".data
  ++ s.primaryColor ++ "</PrimaryColor>\n  <PrimaryTextColor>".data
  ++ s.primaryTextColor ++ "</PrimaryTextColor>\n  <PrimaryBorderColor>".data
  ++ s.primaryBorderColor ++ "</PrimaryBorderColor>\n  <LineColor>".data
  ++ s.lineColor ++ "</LineColor>\n  <BackgroundColor>".data
  ++ s.backgroundColor ++ "</BackgroundColor>\n  <SecondaryColor>".data
  ++ s.secondaryColor ++ "</SecondaryColor>\n  <TertiaryColor>".data
  ++ s.tertiaryColor ++ "</TertiaryColor>\n  <Theme>".data
  ++ s.theme ++ "</Theme>\n  <UpdatedAt>".data
  ++ now ++ "</UpdatedAt>\n</MermaidSettings>".data

/-- The PowerPoint branch of `saveSettings` (lines 3116–3163): iterate over
the part collection (backwards, deleting in place) removing every part whose
text includes `<MermaidSettings>`, then add the freshly built settings
part. -/
def saveSettingsPowerPoint (parts : List (List Char)) (s : MermaidSettings)
    (now : List Char) : List (List Char) :=
  (parts.filter fun p => !(containsSub p settingsMarker)) ++ [settingsXml s now]

/-- The Word branch of `saveSettings` (lines 3164–3210): textually the same
delete-then-add over the Word document's part collection. -/
def saveSettingsWord (parts : List (List Char)) (s : MermaidSettings)
    (now : List Char) : List (List Char) :=
  (parts.filter fun p => !(containsSub p settingsMarker)) ++ [settingsXml s now]

theorem dropPrefix?_self_append (n r : List Char) :
    dropPrefix? n (n ++ r) = some r := by
  induction n with
  | nil => rfl
  | cons c t ih => simp [dropPrefix?, ih]

theorem dropPrefix?_eq_some_iff {n hay r : List Char} :
    dropPrefix? n hay = some r ↔ hay = n ++ r := by
  induction n generalizing hay with
  | nil => simp [dropPrefix?]
  | cons c t ih =>
    cases hay with
    | nil => simp [dropPrefix?]
    | cons h hs =>
      by_cases hc : c = h
      · subst hc
        simp [dropPrefix?, ih]
      · simp [dropPrefix?, hc, Ne.symm hc]

theorem dropPrefix?_isSome_iff {n hay : List Char} :
    (dropPrefix? n hay).isSome ↔ n <+: hay := by
  constructor
  · intro h
    rcases Option.isSome_iff_exists.mp h with ⟨r, hr⟩
    exact ⟨r, (dropPrefix?_eq_some_iff.mp hr).symm⟩
  · rintro ⟨r, hr⟩
    rw [← hr] at *
    simp [dropPrefix?_self_append]

theorem splitFirst_of_dropPrefix {hay needle r : List Char}
    (h : dropPrefix? needle hay = some r) :
    splitFirst hay needle = some ([], r) := by
  cases hay with
  | nil => simp [splitFirst, h]
  | cons c t => rw [splitFirst, h]

theorem splitFirst_cons_of_none {c : Char} {t needle : List Char}
    (h : dropPrefix? needle (c :: t) = none) :
    splitFirst (c :: t) needle
      = (splitFirst t needle).map (fun p => (c :: p.1, p.2)) := by
  rw [splitFirst, h]

theorem splitFirst_nil_of_none {needle : List Char}
    (h : dropPrefix? needle [] = none) : splitFirst [] needle = none := by
  simp [splitFirst, h]

/-- An occurrence anywhere makes `splitFirst` succeed. -/
theorem splitFirst_isSome_of_occurs {hay needle : List Char}
    (h : needle <:+: hay) : (splitFirst hay needle).isSome := by
  rcases h with ⟨s, t, hst⟩
  subst hst
  induction s with
  | nil =>
    simp only [List.nil_append]
    rw [splitFirst_of_dropPrefix (dropPrefix?_self_append needle t)]
    rfl
  | cons c cs ih =>
    simp only [List.cons_append, List.append_assoc] at ih ⊢
    cases hdp : dropPrefix? needle (c :: (cs ++ (needle ++ t))) with
    | some r => simp [splitFirst_of_dropPrefix hdp]
    | none =>
      rw [splitFirst_cons_of_none hdp]
      simpa using ih

theorem containsSub_of_occurs {hay needle : List Char} (h : needle <:+: hay) :
    containsSub hay needle = true := by
  simpa [containsSub] using splitFirst_isSome_of_occurs h

theorem occurs_of_containsSub {hay needle : List Char}
    (h : containsSub hay needle = true) : needle <:+: hay := by
  unfold containsSub at h
  induction hay with
  | nil =>
    cases hdp : dropPrefix? needle [] with
    | some r =>
      have hr := dropPrefix?_eq_some_iff.mp hdp
      rcases List.append_eq_nil.mp hr.symm with ⟨h1, _⟩
      subst h1
      exact List.nil_infix
    | none =>
      rw [splitFirst_nil_of_none hdp] at h
      exact absurd h (by decide)
  | cons c t ih =>
    cases hdp : dropPrefix? needle (c :: t) with
    | some r =>
      have := dropPrefix?_eq_some_iff.mp hdp
      exact ⟨[], r, this.symm⟩
    | none =>
      rw [splitFirst_cons_of_none hdp] at h
      cases hsf : splitFirst t needle with
      | none => rw [hsf] at h; simp [Option.map_none] at h
      | some p => exact List.infix_cons (ih (by rw [hsf]; rfl))

/-- Scanning past a blocking segment: the first occurrence of `needle` in
`seg ++ r` lies inside `r`. -/
theorem splitFirst_append_of_blocks {seg r needle : List Char}
    (h : Blocks seg needle) :
    splitFirst (seg ++ r) needle
      = (splitFirst r needle).map (fun p => (seg ++ p.1, p.2)) := by
  induction seg with
  | nil =>
    cases hsf : splitFirst r needle with
    | none => simp [hsf]
    | some p => simp [hsf]
  | cons c t ih =>
    have h0 := h 0 (by simp)
    simp only [List.drop_zero] at h0
    have hdp : dropPrefix? needle ((c :: t) ++ r) = none := by
      cases hd : dropPrefix? needle ((c :: t) ++ r) with
      | none => rfl
      | some s =>
        have heq := dropPrefix?_eq_some_iff.mp hd
        have hpr : needle <+: (c :: t) ++ r := ⟨s, heq.symm⟩
        have hcomp := List.prefix_or_prefix_of_prefix hpr (List.prefix_append (c :: t) r)
        exact absurd hcomp.symm h0
    rw [List.cons_append] at hdp ⊢
    rw [splitFirst_cons_of_none hdp]
    have ht : Blocks t needle := by
      intro k hk
      simpa using h (k + 1) (by simpa using hk)
    rw [ih ht]
    cases hsf : splitFirst r needle with
    | none => simp
    | some p => simp

/-- Locating a delimiter appended after clean text: if `needle` is border-free
and does not occur inside `code`, the first occurrence of `needle` in
`code ++ needle ++ tail` is exactly the appended one. -/
theorem splitFirst_append_self {code needle tail : List Char}
    (hbf : BorderFree needle) (hni : ¬ needle <:+: code) :
    splitFirst (code ++ needle ++ tail) needle = some (code, tail) := by
  induction code with
  | nil =>
    simp only [List.nil_append]
    rw [splitFirst_of_dropPrefix (dropPrefix?_self_append needle tail)]
  | cons c t ih =>
    have hdp : dropPrefix? needle ((c :: t) ++ needle ++ tail) = none := by
      cases hd : dropPrefix? needle ((c :: t) ++ needle ++ tail) with
      | none => rfl
      | some s =>
        have heq := dropPrefix?_eq_some_iff.mp hd
        have hpr : needle <+: (c :: t) ++ (needle ++ tail) := by
          rw [← List.append_assoc]; exact ⟨s, heq.symm⟩
        by_cases hle : needle.length ≤ (c :: t).length
        · have hpfx : needle <+: c :: t := by
            rw [List.prefix_iff_eq_take] at hpr ⊢
            rwa [List.take_append_of_le_length hle] at hpr
          exact absurd hpfx.isInfix hni
        · push_neg at hle
          have hct : (c :: t) <+: needle := by
            rcases List.prefix_or_prefix_of_prefix hpr
                (List.prefix_append (c :: t) (needle ++ tail)) with hc | hc
            · exact absurd hc.length_le (by omega)
            · exact hc
          rcases hct with ⟨u, hu⟩
          have hulen : u.length = needle.length - (c :: t).length := by
            have hl := congrArg List.length hu
            simp only [List.length_append, List.length_cons] at hl
            simp only [List.length_cons]
            omega
          -- from (c::t) ++ needle ++ tail = needle ++ s and needle = (c::t) ++ u :
          -- needle ++ tail = u ++ s, so u is a prefix of needle
          have hcancel : needle ++ tail = u ++ s := by
            have h1 : (c :: t) ++ (needle ++ tail) = (c :: t) ++ (u ++ s) := by
              rw [← List.append_assoc, heq, ← hu, List.append_assoc]
            exact List.append_cancel_left h1
          have hupfx : u <+: needle := by
            rw [List.prefix_iff_eq_take]
            have hu2 : u = (needle ++ tail).take u.length := by
              rw [hcancel, List.take_append_of_le_length (Nat.le_refl _), List.take_length]
            rwa [List.take_append_of_le_length (by omega)] at hu2
          have hdropu : needle.drop (c :: t).length = u := by
            rw [← hu, List.drop_left]
          exact absurd (hdropu ▸ hupfx) (hbf (c :: t).length hle (by simp))
    rw [List.cons_append, List.cons_append] at hdp ⊢
    rw [splitFirst_cons_of_none hdp]
    have hni' : ¬ needle <:+: t := fun hx => hni <| List.infix_cons hx
    rw [ih hni']
    rfl

/-- No occurrence of a needle starting with `n0` can begin inside a segment
none of whose characters equals `n0`. -/
theorem blocks_of_all_ne {seg : List Char} {n0 : Char} {nt : List Char}
    (h : ∀ c ∈ seg, c ≠ n0) : Blocks seg (n0 :: nt) := by
  intro k hk
  rw [List.drop_eq_getElem_cons hk]
  rintro (hp | hp)
  · exact h _ (List.getElem_mem hk) (List.cons_prefix_cons.mp hp).1
  · exact h _ (List.getElem_mem hk) (List.cons_prefix_cons.mp hp).1.symm

theorem Blocks.append {x y n : List Char} (hx : Blocks x n) (hy : Blocks y n) :
    Blocks (x ++ y) n := by
  intro k hk
  by_cases hkx : k < x.length
  · rw [List.drop_append_of_le_length (le_of_lt hkx)]
    rintro (hp | hp)
    · exact hx k hkx (Or.inl ((List.prefix_append (x.drop k) y).trans hp))
    · rcases List.prefix_or_prefix_of_prefix hp (List.prefix_append (x.drop k) y) with hc | hc
      · exact hx k hkx (Or.inr hc)
      · exact hx k hkx (Or.inl hc)
  · push_neg at hkx
    have hky : k - x.length < y.length := by
      have := hk
      simp only [List.length_append] at this
      omega
    have hsplit : k = x.length + (k - x.length) := by omega
    rw [hsplit, List.drop_append]
    exact hy (k - x.length) hky

namespace WordInserter

theorem safeIdChar_ne_lt {c : Char} (h : SafeIdChar c) : c ≠ '<' := by
  rcases h with h | h
  · intro hc; subst hc; exact absurd h (by decide)
  · intro hc; rw [h] at hc; exact absurd hc (by decide)

theorem blocks_id_codeOpen {diagramId : List Char}
    (hid : ∀ c ∈ diagramId, SafeIdChar c) : Blocks diagramId codeOpen := by
  have : codeOpen = '<' :: "Code><![CDATA[".data := by decide
  rw [this]
  exact blocks_of_all_ne (fun c hc => safeIdChar_ne_lt (hid c hc))

theorem xmlHeader_decomp : xmlHeader = headerPre ++ idOpen := by decide

theorem afterId_decomp_close : afterId = idClose ++ "\n  <Code><![CDATA[".data := by decide

theorem afterId_decomp_open : afterId = beforeCode ++ codeOpen := by decide

theorem afterCode_decomp : afterCode = codeClose ++ createdLead := by decide

/-- Finding the CDATA opener in a serialized record: the fixed header, a
generated id, and the `</Id>` filler cannot host or straddle an occurrence,
so the first occurrence is the template's own. -/
theorem splitFirst_codeOpen (diagramId mermaidCode createdAt : List Char)
    (hid : ∀ c ∈ diagramId, SafeIdChar c) :
    splitFirst (wordDiagramXml diagramId mermaidCode createdAt) codeOpen
      = some (xmlHeader ++ (diagramId ++ beforeCode),
          mermaidCode ++ (afterCode ++ (createdAt ++ xmlTail))) := by
  have hre : wordDiagramXml diagramId mermaidCode createdAt
      = (xmlHeader ++ (diagramId ++ beforeCode))
        ++ (codeOpen ++ (mermaidCode ++ (afterCode ++ (createdAt ++ xmlTail)))) := by
    unfold wordDiagramXml
    rw [afterId_decomp_open]
    simp [List.append_assoc]
  have hblocks : Blocks (xmlHeader ++ (diagramId ++ beforeCode)) codeOpen :=
    Blocks.append (by decide)
      (Blocks.append (blocks_id_codeOpen hid) (by decide))
  rw [hre, splitFirst_append_of_blocks hblocks,
    splitFirst_of_dropPrefix (dropPrefix?_self_append codeOpen _)]
  simp

/-- Finding the CDATA closer after source code that does not contain it:
`]]></Code>` is border-free, so its first occurrence after the code is the
template's own. -/
theorem splitFirst_codeClose (mermaidCode createdAt : List Char)
    (hcode : containsSub mermaidCode codeClose = false) :
    splitFirst (mermaidCode ++ (afterCode ++ (createdAt ++ xmlTail))) codeClose
      = some (mermaidCode, createdLead ++ (createdAt ++ xmlTail)) := by
  have hre : mermaidCode ++ (afterCode ++ (createdAt ++ xmlTail))
      = mermaidCode ++ codeClose ++ (createdLead ++ (createdAt ++ xmlTail)) := by
    rw [afterCode_decomp]
    simp [List.append_assoc]
  rw [hre]
  exact splitFirst_append_self (by decide)
    (fun hinf => by simp [containsSub_of_occurs hinf] at hcode)

/-- The CDATA extraction regex recovers exactly the stored source code. -/
theorem extractDiagramCode_wordDiagramXml (diagramId mermaidCode createdAt : List Char)
    (hid : ∀ c ∈ diagramId, SafeIdChar c)
    (hcode : containsSub mermaidCode codeClose = false) :
    extractDiagramCode (wordDiagramXml diagramId mermaidCode createdAt)
      = some mermaidCode := by
  unfold extractDiagramCode
  rw [splitFirst_codeOpen diagramId mermaidCode createdAt hid]
  simp [splitFirst_codeClose mermaidCode createdAt hcode]

/-- A freshly stored record passes `getSelectedDiagram`'s two `includes`
checks for its own id. -/
theorem wordDiagramXml_passes_checks (diagramId mermaidCode createdAt : List Char) :
    containsSub (wordDiagramXml diagramId mermaidCode createdAt) mermaidMarker = true
    ∧ containsSub (wordDiagramXml diagramId mermaidCode createdAt)
        (idOpen ++ diagramId ++ idClose) = true := by
  constructor
  · apply containsSub_of_occurs
    have h1 : mermaidMarker <:+: xmlHeader := by decide
    apply h1.trans
    apply List.IsPrefix.isInfix
    exact ⟨diagramId ++ afterId ++ mermaidCode ++ afterCode ++ createdAt ++ xmlTail,
      by unfold wordDiagramXml; simp [List.append_assoc]⟩
  · apply containsSub_of_occurs
    refine ⟨headerPre,
      "\n  <Code><![CDATA[".data ++ mermaidCode ++ afterCode ++ createdAt ++ xmlTail, ?_⟩
    unfold wordDiagramXml
    rw [xmlHeader_decomp, afterId_decomp_close]
    simp [List.append_assoc]

end WordInserter

/-- C1, amended: putting a record and reading it back by its id returns the
stored source code exactly — for every store state, every generated-shape id
(base-36 alphanumerics and hyphens), every timestamp, and every source text
that does not contain the closing delimiter `]]></Code>`, provided no
pre-existing part already passes the id checks (ids are unique).  The
original claim fails for source text containing `]]></Code>` (see the
counterexample): the lazy CDATA regex then stops at the embedded closer. -/
theorem C1_roundtrip_amended
    (parts : List (List Char)) (diagramId mermaidCode createdAt : List Char)
    (hid : ∀ c ∈ diagramId, WordInserter.SafeIdChar c)
    (hcode : containsSub mermaidCode WordInserter.codeClose = false)
    (hfresh : ∀ p ∈ parts,
      ¬(containsSub p WordInserter.mermaidMarker = true
        ∧ containsSub p (WordInserter.idOpen ++ diagramId ++ WordInserter.idClose) = true)) :
    WordInserter.findDiagramCode diagramId
        (WordInserter.storeDiagramMetadata parts diagramId mermaidCode createdAt)
      = some mermaidCode := by
  unfold WordInserter.storeDiagramMetadata
  induction parts with
  | nil =>
    simp only [List.nil_append]
    obtain ⟨h1, h2⟩ := WordInserter.wordDiagramXml_passes_checks diagramId mermaidCode createdAt
    rw [WordInserter.findDiagramCode, h1, h2,
      WordInserter.extractDiagramCode_wordDiagramXml diagramId mermaidCode createdAt hid hcode]
    simp
  | cons p ps ih =>
    have hp := hfresh p (List.mem_cons_self p ps)
    have hcond : (containsSub p WordInserter.mermaidMarker
        && containsSub p (WordInserter.idOpen ++ diagramId ++ WordInserter.idClose)) = false := by
      cases hA : containsSub p WordInserter.mermaidMarker <;>
        cases hB : containsSub p (WordInserter.idOpen ++ diagramId ++ WordInserter.idClose) <;>
          simp_all
    simp only [List.cons_append]
    rw [WordInserter.findDiagramCode, hcond]
    exact ih (fun q hq => hfresh q (List.mem_cons_of_mem _ hq))

/-- C1, counterexample to the claim as stated: for source text containing the
markup-special sequence `]]></Code>`, the read path returns a strict prefix of
what was stored, not the stored text. -/
theorem C1_counterexample :
    WordInserter.findDiagramCode "d1".data
        (WordInserter.storeDiagramMetadata [] "d1".data "a]]></Code>b".data
          "2024-01-01T00:00:00.000Z".data)
      = some "a".data
    ∧ "a".data ≠ "a]]></Code>b".data := by
  constructor
  · decide
  · decide

/-- C1, witness: the amended round-trip evaluated on a concrete store, id, and
source text with embedded newlines, quotes, and a lone `]]>`. -/
theorem C1_witness :
    WordInserter.findDiagramCode "mermaid-ab3x9".data
        (WordInserter.storeDiagramMetadata [] "mermaid-ab3x9".data
          "graph TD\n  A[\"Say ]]> hi\"] --> B\n".data "2024-01-01T00:00:00.000Z".data)
      = some "graph TD\n  A[\"Say ]]> hi\"] --> B\n".data :=
  C1_roundtrip_amended [] _ _ _ (by decide) (by decide) (by simp)

/-- C3: update on an id that no stored part carries raises the not-found
error and returns the store unchanged — no record added, deleted, or
modified. -/
theorem C3_update_missing_id
    (parts : List Ppt.PpXmlPart) (diagramId mermaidCode now : String)
    (h : ∀ p ∈ parts, Ppt.partIdMatches p diagramId = false) :
    Ppt.updateDiagramData parts diagramId mermaidCode now
      = (Except.error "Diagram data not found for update", parts) := by
  have hloop : Ppt.updateLoop diagramId parts = none := by
    induction parts with
    | nil => rfl
    | cons p ps ih =>
      rw [Ppt.updateLoop, h p (List.mem_cons_self p ps),
        ih (fun q hq => h q (List.mem_cons_of_mem _ hq))]
      rfl
  rw [Ppt.updateDiagramData, hloop]

/-- C3, witness: update of an absent id on a two-part store. -/
theorem C3_witness :
    Ppt.updateDiagramData
        [Ppt.PpXmlPart.foreign,
         Ppt.PpXmlPart.record "mermaid-a1" (some "graph TD") (some true) (some "t0") none]
        "mermaid-zz" "flowchart LR" "t1"
      = (Except.error "Diagram data not found for update",
         [Ppt.PpXmlPart.foreign,
          Ppt.PpXmlPart.record "mermaid-a1" (some "graph TD") (some true) (some "t0") none]) :=
  C3_update_missing_id _ _ _ _ (by decide)

/-- C4, amended: update on a store containing the id deletes the first
matching record and appends a replacement carrying the new source code, the
same id, and the new `UpdatedAt` — but the replacement's `ShapeTagged` field
is hard-coded to `true` and its `CreatedAt` field is dropped, whatever the
original record held (see the counterexample); every other record's content
is untouched, though the updated record moves to the end of the
collection. -/
theorem C4_update_found_amended
    (pre post : List Ppt.PpXmlPart) (diagramId mermaidCode now : String)
    (code0 : Option String) (st0 : Option Bool) (ca0 ua0 : Option String)
    (hpre : ∀ p ∈ pre, Ppt.partIdMatches p diagramId = false) :
    Ppt.updateDiagramData
        (pre ++ Ppt.PpXmlPart.record diagramId code0 st0 ca0 ua0 :: post)
        diagramId mermaidCode now
      = (Except.ok (),
         (pre ++ post)
           ++ [Ppt.PpXmlPart.record diagramId (some mermaidCode) (some true) none (some now)]) := by
  have hloop : Ppt.updateLoop diagramId
      (pre ++ Ppt.PpXmlPart.record diagramId code0 st0 ca0 ua0 :: post)
      = some (pre ++ post) := by
    induction pre with
    | nil =>
      simp only [List.nil_append]
      rw [Ppt.updateLoop]
      have : Ppt.partIdMatches (Ppt.PpXmlPart.record diagramId code0 st0 ca0 ua0) diagramId
          = true := by simp [Ppt.partIdMatches]
      rw [this]
      rfl
    | cons p ps ih =>
      simp only [List.cons_append]
      rw [Ppt.updateLoop, hpre p (List.mem_cons_self p ps),
        ih (fun q hq => hpre q (List.mem_cons_of_mem _ hq))]
      rfl
  rw [Ppt.updateDiagramData, hloop]

/-- C4, counterexample to the claim as stated: updating a record whose
`ShapeTagged` was `false` and which carried a `CreatedAt` rewrites those
fields too — `ShapeTagged` becomes `true` and `CreatedAt` disappears — so
more than `sourceCode` and `updatedAt` change. -/
theorem C4_counterexample :
    Ppt.updateDiagramData
        [Ppt.PpXmlPart.record "mermaid-a1" (some "graph TD") (some false) (some "t0") none]
        "mermaid-a1" "flowchart LR" "t1"
      = (Except.ok (),
         [Ppt.PpXmlPart.record "mermaid-a1" (some "flowchart LR") (some true) none (some "t1")])
    ∧ (some true : Option Bool) ≠ some false
    ∧ (none : Option String) ≠ some "t0" := by
  refine ⟨rfl, by decide, by decide⟩

/-- C4, witness: the amended update on a three-part store, showing the
surrounding records untouched. -/
theorem C4_witness :
    Ppt.updateDiagramData
        [Ppt.PpXmlPart.foreign,
         Ppt.PpXmlPart.record "mermaid-a1" (some "graph TD") (some false) (some "t0") none,
         Ppt.PpXmlPart.record "mermaid-b2" (some "pie") (some true) (some "t0") none]
        "mermaid-a1" "flowchart LR" "t1"
      = (Except.ok (),
         [Ppt.PpXmlPart.foreign,
          Ppt.PpXmlPart.record "mermaid-b2" (some "pie") (some true) (some "t0") none,
          Ppt.PpXmlPart.record "mermaid-a1" (some "flowchart LR") (some true) none (some "t1")]) :=
  C4_update_found_amended [Ppt.PpXmlPart.foreign]
    [Ppt.PpXmlPart.record "mermaid-b2" (some "pie") (some true) (some "t0") none]
    "mermaid-a1" "flowchart LR" "t1" (some "graph TD") (some false) (some "t0") none
    (by decide)

/-- C2, amended: selection recovery returns null — never an error — when
multiple shapes are selected, when the examined shape carries no
`mermaid_diagram_id` tag, or when the tag resolves to no stored record; but
when zero shapes are selected it does not return null outright: it falls
back to the most recently added shape of the current slide and applies the
same tag-based recovery to it (still no geometry-based matching on the read
path). -/
theorem C2_recovery_amended :
    (∀ (s1 s2 : Ppt.PpShape) (rest : List Ppt.PpShape) (slides : List (List Ppt.PpShape))
        (parts : List Ppt.PpXmlPart),
      Ppt.getSelectedDiagram ⟨s1 :: s2 :: rest, slides⟩ parts = none)
    ∧ (∀ (shape : Ppt.PpShape) (slides : List (List Ppt.PpShape))
        (parts : List Ppt.PpXmlPart), Ppt.findDiagramTag shape = "" →
      Ppt.getSelectedDiagram ⟨[shape], slides⟩ parts = none)
    ∧ (∀ (shape : Ppt.PpShape) (slides : List (List Ppt.PpShape))
        (parts : List Ppt.PpXmlPart),
      Ppt.lookupPart parts (Ppt.findDiagramTag shape) = none →
      Ppt.getSelectedDiagram ⟨[shape], slides⟩ parts = none)
    ∧ (∀ (slide : List Ppt.PpShape) (rest : List (List Ppt.PpShape))
        (parts : List Ppt.PpXmlPart) (shape : Ppt.PpShape),
      slide.getLast? = some shape →
      Ppt.getSelectedDiagram ⟨[], slide :: rest⟩ parts
        = Ppt.recoverFromShape shape parts) := by
  refine ⟨fun s1 s2 rest slides parts => rfl, ?_, ?_, ?_⟩
  · intro shape slides parts htag
    show Ppt.recoverFromShape shape parts = none
    unfold Ppt.recoverFromShape
    simp [htag]
  · intro shape slides parts hlook
    show Ppt.recoverFromShape shape parts = none
    unfold Ppt.recoverFromShape
    by_cases h : Ppt.findDiagramTag shape = ""
    · simp [h]
    · simp only [h, ne_eq, not_false_iff, if_true]
      exact hlook
  · intro slide rest parts shape hlast
    show (match slide.getLast? with
      | some shape => Ppt.recoverFromShape shape parts
      | none => none) = Ppt.recoverFromShape shape parts
    rw [hlast]

/-- C2, counterexample to the claim as stated: with zero shapes selected but
a tagged shape present on the current slide, `getSelectedDiagram` returns
that shape's record rather than null. -/
theorem C2_counterexample :
    Ppt.getSelectedDiagram
        ⟨[], [[⟨[("mermaid_diagram_id", "mermaid-a1")]⟩]]⟩
        [Ppt.PpXmlPart.record "mermaid-a1" (some "graph TD") (some true) (some "t0") none]
      = some ⟨"mermaid-a1", "graph TD"⟩
    ∧ some (⟨"mermaid-a1", "graph TD"⟩ : Ppt.DiagramData) ≠ none :=
  ⟨by decide, by decide⟩

/-- C2, witness: the amended theorem evaluated on concrete selection states —
two shapes selected, an untagged single selection, a tagged single selection
with an empty store, and the zero-selection slide fallback. -/
theorem C2_witness :
    Ppt.getSelectedDiagram ⟨[⟨[]⟩, ⟨[]⟩], []⟩ [] = none
    ∧ Ppt.getSelectedDiagram ⟨[⟨[]⟩], [[]]⟩ [Ppt.PpXmlPart.foreign] = none
    ∧ Ppt.getSelectedDiagram ⟨[⟨[("mermaid_diagram_id", "mermaid-a1")]⟩], []⟩ [] = none
    ∧ Ppt.getSelectedDiagram ⟨[], [[⟨[("mermaid_diagram_id", "mermaid-a1")]⟩]]⟩ []
        = Ppt.recoverFromShape ⟨[("mermaid_diagram_id", "mermaid-a1")]⟩ [] :=
  ⟨C2_recovery_amended.1 ⟨[]⟩ ⟨[]⟩ [] [] [],
   C2_recovery_amended.2.1 ⟨[]⟩ [[]] [Ppt.PpXmlPart.foreign] rfl,
   C2_recovery_amended.2.2.1 ⟨[("mermaid_diagram_id", "mermaid-a1")]⟩ [] [] rfl,
   C2_recovery_amended.2.2.2 [⟨[("mermaid_diagram_id", "mermaid-a1")]⟩] [] []
     ⟨[("mermaid_diagram_id", "mermaid-a1")]⟩ rfl⟩

theorem jsRound_abs_le (q : ℚ) : |(jsRound q : ℚ) - q| ≤ 1 / 2 := by
  unfold jsRound
  rw [abs_le]
  constructor
  · have h := Int.lt_floor_add_one (q + 1 / 2)
    push_cast at h ⊢
    linarith
  · have h := Int.floor_le (q + 1 / 2)
    push_cast at h ⊢
    linarith

/-- C5, amended: under the claim's positivity assumptions (and a positive
printable area), the geometry planner preserves the aspect ratio exactly
*before* its final `Math.round`, and at least one pre-rounding axis reaches
the 144-point floor; the returned integers are the roundings of those exact
values, each within 1/2 point.  The claim's 1e-6 relative tolerance on the
*returned* ratio fails because of the rounding (see the counterexample). -/
theorem C5_geometry_amended (svgW svgH pageW pageH mL mR mT mB : ℚ)
    (hsw : 0 < svgW) (hsh : 0 < svgH) (hpw : 0 < pageW) (hph : 0 < pageH)
    (hml : 0 < mL) (hmr : 0 < mR) (hmt : 0 < mT) (hmb : 0 < mB)
    (haw : 0 < pageW - mL - mR) (hah : 0 < pageH - mT - mB) :
    (WordInserter.calculateOptimalDiagramSizeRaw svgW svgH pageW pageH mL mR mT mB).1
        / (WordInserter.calculateOptimalDiagramSizeRaw svgW svgH pageW pageH mL mR mT mB).2
      = svgW / svgH
    ∧ 144 ≤ max (WordInserter.calculateOptimalDiagramSizeRaw svgW svgH pageW pageH mL mR mT mB).1
        (WordInserter.calculateOptimalDiagramSizeRaw svgW svgH pageW pageH mL mR mT mB).2
    ∧ WordInserter.calculateOptimalDiagramSize svgW svgH pageW pageH mL mR mT mB
      = (jsRound (WordInserter.calculateOptimalDiagramSizeRaw svgW svgH pageW pageH mL mR mT mB).1,
         jsRound (WordInserter.calculateOptimalDiagramSizeRaw svgW svgH pageW pageH mL mR mT mB).2)
    ∧ |((jsRound (WordInserter.calculateOptimalDiagramSizeRaw svgW svgH pageW pageH mL mR mT mB).1 : ℚ))
        - (WordInserter.calculateOptimalDiagramSizeRaw svgW svgH pageW pageH mL mR mT mB).1| ≤ 1 / 2
    ∧ |((jsRound (WordInserter.calculateOptimalDiagramSizeRaw svgW svgH pageW pageH mL mR mT mB).2 : ℚ))
        - (WordInserter.calculateOptimalDiagramSizeRaw svgW svgH pageW pageH mL mR mT mB).2| ≤ 1 / 2 := by
  have hA : 0 < svgW / svgH := div_pos hsw hsh
  have hAne : svgW / svgH ≠ 0 := ne_of_gt hA
  have hawne : pageW - mL - mR ≠ 0 := ne_of_gt haw
  have hahne : pageH - mT - mB ≠ 0 := ne_of_gt hah
  have hshne : svgH ≠ 0 := ne_of_gt hsh
  have hswne : svgW ≠ 0 := ne_of_gt hsw
  refine ⟨?_, ?_, rfl, jsRound_abs_le _, jsRound_abs_le _⟩
  · simp only [WordInserter.calculateOptimalDiagramSizeRaw]
    split_ifs with hc hfl hgt hfl hgt
    all_goals field_simp
    all_goals ring
  · simp only [WordInserter.calculateOptimalDiagramSizeRaw]
    split_ifs with hc hfl hgt hfl hgt
    · exact le_max_left _ _
    · exact le_max_right _ _
    · rcases not_and_or.mp hfl with h | h
      · push_neg at h
        exact le_trans h (le_max_left _ _)
      · push_neg at h
        exact le_trans h (le_max_right _ _)
    · exact le_max_left _ _
    · exact le_max_right _ _
    · rcases not_and_or.mp hfl with h | h
      · push_neg at h
        exact le_trans h (le_max_left _ _)
      · push_neg at h
        exact le_trans h (le_max_right _ _)

/-- C5, counterexample to the claim as stated: for a 1000×3 diagram on a
612×792 page with 72-point margins the planner returns (468, 1) — the
`Math.round` collapses the exact height 1.404 to 1, and the returned ratio
468 is nowhere near 1000/3 ≈ 333.3 within 1e-6 relative tolerance. -/
theorem C5_counterexample :
    WordInserter.calculateOptimalDiagramSize 1000 3 612 792 72 72 72 72 = (468, 1)
    ∧ ¬ |(468 : ℚ) / 1 - 1000 / 3| ≤ 1000 / 3 * (1 / 1000000) := by
  constructor
  · show (jsRound (WordInserter.calculateOptimalDiagramSizeRaw 1000 3 612 792 72 72 72 72).1,
        jsRound (WordInserter.calculateOptimalDiagramSizeRaw 1000 3 612 792 72 72 72 72).2)
      = (468, 1)
    have hraw : WordInserter.calculateOptimalDiagramSizeRaw 1000 3 612 792 72 72 72 72
        = (468, 351 / 250) := by
      simp only [WordInserter.calculateOptimalDiagramSizeRaw]
      norm_num
    rw [hraw]
    unfold jsRound
    norm_num
  · have habs : |(468 : ℚ) / 1 - 1000 / 3| = 468 / 1 - 1000 / 3 :=
      abs_of_nonneg (by norm_num)
    rw [habs]
    norm_num

/-- C5, witness: the amended theorem at a 800×600 diagram on a US-Letter page
with one-inch margins. -/
theorem C5_witness :
    (WordInserter.calculateOptimalDiagramSizeRaw 800 600 612 792 72 72 72 72).1
        / (WordInserter.calculateOptimalDiagramSizeRaw 800 600 612 792 72 72 72 72).2
      = 800 / 600
    ∧ 144 ≤ max (WordInserter.calculateOptimalDiagramSizeRaw 800 600 612 792 72 72 72 72).1
        (WordInserter.calculateOptimalDiagramSizeRaw 800 600 612 792 72 72 72 72).2
    ∧ WordInserter.calculateOptimalDiagramSize 800 600 612 792 72 72 72 72
      = (jsRound (WordInserter.calculateOptimalDiagramSizeRaw 800 600 612 792 72 72 72 72).1,
         jsRound (WordInserter.calculateOptimalDiagramSizeRaw 800 600 612 792 72 72 72 72).2)
    ∧ |((jsRound (WordInserter.calculateOptimalDiagramSizeRaw 800 600 612 792 72 72 72 72).1 : ℚ))
        - (WordInserter.calculateOptimalDiagramSizeRaw 800 600 612 792 72 72 72 72).1| ≤ 1 / 2
    ∧ |((jsRound (WordInserter.calculateOptimalDiagramSizeRaw 800 600 612 792 72 72 72 72).2 : ℚ))
        - (WordInserter.calculateOptimalDiagramSizeRaw 800 600 612 792 72 72 72 72).2| ≤ 1 / 2 :=
  C5_geometry_amended 800 600 612 792 72 72 72 72
    (by norm_num) (by norm_num) (by norm_num) (by norm_num)
    (by norm_num) (by norm_num) (by norm_num) (by norm_num)
    (by norm_num) (by norm_num)

/-- C6: for every markup string and positive target display size (in points),
fixed-DPI rasterization produces exactly `round(target·300/72)` pixels on
each axis, and its operation trace fills the full canvas opaque white before
drawing the vector image. -/
theorem C6_fixed_dpi_raster (svgString : List Char) (tw th : ℚ)
    (hw : 0 < tw) (hh : 0 < th) :
    (WordInserter.convertSvgToPngForWord svgString tw th).width = jsRound (tw * 300 / 72)
    ∧ (WordInserter.convertSvgToPngForWord svgString tw th).height = jsRound (th * 300 / 72)
    ∧ (WordInserter.convertSvgToPngForWord svgString tw th).ops
      = [CanvasOp.fillWhiteRect 0 0 (jsRound (tw * 300 / 72)) (jsRound (th * 300 / 72)),
         CanvasOp.drawImage 0 0 (jsRound (tw * 300 / 72)) (jsRound (th * 300 / 72))] := by
  have hmw : tw * (300 / 72) = tw * 300 / 72 := by ring
  have hmh : th * (300 / 72) = th * 300 / 72 := by ring
  simp only [WordInserter.convertSvgToPngForWord]
  rw [hmw, hmh]
  exact ⟨rfl, rfl, rfl⟩

/-- C6, witness: a 72×144-point target yields a 300×600-pixel canvas, filled
white before the draw. -/
theorem C6_witness :
    (WordInserter.convertSvgToPngForWord "<svg></svg>".data 72 144).width
      = jsRound ((72 : ℚ) * 300 / 72)
    ∧ (WordInserter.convertSvgToPngForWord "<svg></svg>".data 72 144).height
      = jsRound ((144 : ℚ) * 300 / 72)
    ∧ (WordInserter.convertSvgToPngForWord "<svg></svg>".data 72 144).ops
      = [CanvasOp.fillWhiteRect 0 0 (jsRound ((72 : ℚ) * 300 / 72)) (jsRound ((144 : ℚ) * 300 / 72)),
         CanvasOp.drawImage 0 0 (jsRound ((72 : ℚ) * 300 / 72)) (jsRound ((144 : ℚ) * 300 / 72))] :=
  C6_fixed_dpi_raster "<svg></svg>".data 72 144 (by norm_num) (by norm_num)

/-- C7: the shape matcher accepts two four-number geometry descriptors
exactly when both position differences are at most 5 and both size ratios
(min over max) are at least 1/2 — and in particular (10,10,100,100) matches
(12,11,140,100) while (10,10,100,100) does not match (20,10,100,100). -/
theorem C7_shape_matcher :
    (∀ l1 t1 w1 h1 l2 t2 w2 h2 : ℚ,
      shapesApproximatelyMatch [l1, t1, w1, h1] [l2, t2, w2, h2] = true
        ↔ (|l1 - l2| ≤ 5 ∧ |t1 - t2| ≤ 5
          ∧ min w1 w2 / max w1 w2 ≥ 1 / 2 ∧ min h1 h2 / max h1 h2 ≥ 1 / 2))
    ∧ shapesApproximatelyMatch [10, 10, 100, 100] [12, 11, 140, 100] = true
    ∧ shapesApproximatelyMatch [10, 10, 100, 100] [20, 10, 100, 100] = false := by
  have hiff : ∀ l1 t1 w1 h1 l2 t2 w2 h2 : ℚ,
      shapesApproximatelyMatch [l1, t1, w1, h1] [l2, t2, w2, h2] = true
        ↔ (|l1 - l2| ≤ 5 ∧ |t1 - t2| ≤ 5
          ∧ min w1 w2 / max w1 w2 ≥ 1 / 2 ∧ min h1 h2 / max h1 h2 ≥ 1 / 2) := by
    intro l1 t1 w1 h1 l2 t2 w2 h2
    simp only [shapesApproximatelyMatch]
    split_ifs with hpos
    · rw [decide_eq_true_iff]
      constructor
      · intro h
        refine ⟨hpos.1, hpos.2, ?_, ?_⟩
        · have := h.1
          linarith
        · have := h.2
          linarith
      · intro h
        refine ⟨by linarith [h.2.2.1], by linarith [h.2.2.2]⟩
    · simp only [false_iff]
      intro h
      exact hpos ⟨h.1, h.2.1⟩
  refine ⟨hiff, ?_, ?_⟩
  · exact (hiff 10 10 100 100 12 11 140 100).mpr (by norm_num)
  · rw [Bool.eq_false_iff]
    intro hc
    have h2 := (hiff 10 10 100 100 20 10 100 100).mp hc
    norm_num at h2

/-- C8: `exitInsertionMode` is total (it never raises), idempotent, and a
no-op on a state with no pending insertion; and after a phase-1 insert
followed by `exitInsertionMode` — with `insertAtCurrentPosition` never
called — the selection-changed handler is removed and a second insert starts
a fresh awaiting-placement cycle without error. -/
theorem C8_exit_insertion_mode
    (mermaidCode svgContent : List Char) (s : WordInserter.WordInserterState)
    (hsvg1 : (jsTrim svgContent).isEmpty = false)
    (hsvg2 : containsSub svgContent "<svg".data = true) :
    WordInserter.exitInsertionMode (WordInserter.exitInsertionMode s)
      = WordInserter.exitInsertionMode s
    ∧ (s.insertionMode = false → s.pendingInsertion = none → s.handlerRegistered = false →
        WordInserter.exitInsertionMode s = s)
    ∧ (WordInserter.insertDiagram true true mermaidCode svgContent s).2
      = .success WordInserter.awaitPlacementMsg
    ∧ (WordInserter.exitInsertionMode
        (WordInserter.insertDiagram true true mermaidCode svgContent s).1).handlerRegistered
      = false
    ∧ (WordInserter.insertDiagram true true mermaidCode svgContent
        (WordInserter.exitInsertionMode
          (WordInserter.insertDiagram true true mermaidCode svgContent s).1)).2
      = .success WordInserter.awaitPlacementMsg
    ∧ (WordInserter.insertDiagram true true mermaidCode svgContent
        (WordInserter.exitInsertionMode
          (WordInserter.insertDiagram true true mermaidCode svgContent s).1)).1.insertionMode
      = true := by
  refine ⟨rfl, ?_, ?_, rfl, ?_, ?_⟩
  · intro h1 h2 h3
    cases s
    simp_all [WordInserter.exitInsertionMode]
  · simp [WordInserter.insertDiagram, hsvg1, hsvg2]
  · simp [WordInserter.insertDiagram, hsvg1, hsvg2]
  · simp [WordInserter.insertDiagram, hsvg1, hsvg2]

/-- C8, witness: the theorem evaluated on valid markup and the idle state. -/
theorem C8_witness :
    WordInserter.exitInsertionMode (WordInserter.exitInsertionMode ⟨false, none, false⟩)
      = WordInserter.exitInsertionMode ⟨false, none, false⟩
    ∧ ((false : Bool) = false → (none : Option (List Char × List Char)) = none →
        (false : Bool) = false →
        WordInserter.exitInsertionMode ⟨false, none, false⟩ = ⟨false, none, false⟩)
    ∧ (WordInserter.insertDiagram true true "graph TD".data "<svg></svg>".data
        ⟨false, none, false⟩).2 = .success WordInserter.awaitPlacementMsg
    ∧ (WordInserter.exitInsertionMode
        (WordInserter.insertDiagram true true "graph TD".data "<svg></svg>".data
          ⟨false, none, false⟩).1).handlerRegistered = false
    ∧ (WordInserter.insertDiagram true true "graph TD".data "<svg></svg>".data
        (WordInserter.exitInsertionMode
          (WordInserter.insertDiagram true true "graph TD".data "<svg></svg>".data
            ⟨false, none, false⟩).1)).2 = .success WordInserter.awaitPlacementMsg
    ∧ (WordInserter.insertDiagram true true "graph TD".data "<svg></svg>".data
        (WordInserter.exitInsertionMode
          (WordInserter.insertDiagram true true "graph TD".data "<svg></svg>".data
            ⟨false, none, false⟩).1)).1.insertionMode = true :=
  C8_exit_insertion_mode "graph TD".data "<svg></svg>".data ⟨false, none, false⟩
    (by decide) (by decide)

theorem tryViewBoxDims_pos {t : List Char} {d : SvgDimensions}
    (ht : WordInserter.tryViewBoxDims t = some d) :
    0 < d.width ∧ 0 < d.height := by
  obtain ⟨dw, dh⟩ := d
  unfold WordInserter.tryViewBoxDims at ht
  repeat' split at ht
  all_goals simp_all

theorem tryWidthHeightDims_pos {t : List Char} {d : SvgDimensions}
    (ht : WordInserter.tryWidthHeightDims t = some d) :
    0 < d.width ∧ 0 < d.height := by
  obtain ⟨dw, dh⟩ := d
  unfold WordInserter.tryWidthHeightDims at ht
  repeat' split at ht
  all_goals simp_all

/-- C9: the dimension parser is a total function (it never throws): on every
input it returns the `viewBox`-derived dimensions when that attempt yields
positive numbers, else the width/height-attribute dimensions when that
attempt yields positive numbers, else the `{0, 0}` sentinel; consequently
every result is either strictly positive on both axes or exactly the
sentinel. -/
theorem C9_parse_svg_viewbox (s : List Char) :
    WordInserter.parseSvgViewBox s
      = ((WordInserter.tryViewBoxDims s).orElse
          fun _ => WordInserter.tryWidthHeightDims s).getD ⟨0, 0⟩
    ∧ ((0 < (WordInserter.parseSvgViewBox s).width
        ∧ 0 < (WordInserter.parseSvgViewBox s).height)
      ∨ WordInserter.parseSvgViewBox s = ⟨0, 0⟩) := by
  have hwh_eq : WordInserter.parseSvgWidthHeight s
      = (WordInserter.tryWidthHeightDims s).getD ⟨0, 0⟩ := by
    unfold WordInserter.parseSvgWidthHeight WordInserter.tryWidthHeightDims
    repeat' split
    all_goals simp_all
  have hmain : WordInserter.parseSvgViewBox s
      = ((WordInserter.tryViewBoxDims s).orElse
          fun _ => WordInserter.tryWidthHeightDims s).getD ⟨0, 0⟩ := by
    unfold WordInserter.parseSvgViewBox WordInserter.tryViewBoxDims
    repeat' split
    all_goals simp_all [hwh_eq]
  refine ⟨hmain, ?_⟩
  rw [hmain]
  cases hvbd : WordInserter.tryViewBoxDims s with
  | some d => exact Or.inl (tryViewBoxDims_pos hvbd)
  | none =>
    cases hwhd : WordInserter.tryWidthHeightDims s with
    | some d => exact Or.inl (tryWidthHeightDims_pos hwhd)
    | none => exact Or.inr rfl

set_option maxRecDepth 8000 in
theorem settingsXml_contains_marker (s : MermaidSettings) (now : List Char) :
    containsSub (settingsXml s now) settingsMarker = true := by
  apply containsSub_of_occurs
  have h1 : settingsMarker
      <:+: ("<?xml version=\"1.0\" encoding=\"UTF-8\"?>\n<MermaidSettings>\n  <FontFamily><![CDATA[".data : List Char) := by
    decide
  apply h1.trans
  apply List.IsPrefix.isInfix
  exact ⟨s.fontFamily ++ "]]></FontFamily>\n  <FontSize>".data
    ++ s.fontSize ++ "</FontSize>\n  <PrimaryColor>".data
    ++ s.primaryColor ++ "</PrimaryColor>\n  <PrimaryTextColor>".data
    ++ s.primaryTextColor ++ "</PrimaryTextColor>\n  <PrimaryBorderColor>".data
    ++ s.primaryBorderColor ++ "</PrimaryBorderColor>\n  <LineColor>".data
    ++ s.lineColor ++ "</LineColor>\n  <BackgroundColor>".data
    ++ s.backgroundColor ++ "</BackgroundColor>\n  <SecondaryColor>".data
    ++ s.secondaryColor ++ "</SecondaryColor>\n  <TertiaryColor>".data
    ++ s.tertiaryColor ++ "</TertiaryColor>\n  <Theme>".data
    ++ s.theme ++ "</Theme>\n  <UpdatedAt>".data
    ++ now ++ "</UpdatedAt>\n</MermaidSettings>".data,
    by simp [settingsXml, List.append_assoc]⟩

/-- C10: after every (successful) `saveSettings`, on the PowerPoint path and
on the Word path alike, exactly one part of the resulting collection
contains the `<MermaidSettings>` marker: every pre-existing part containing
it is deleted before the single new settings part is added, so repeated
saves never accumulate duplicates. -/
theorem C10_save_settings_unique (parts : List (List Char))
    (s : MermaidSettings) (now : List Char) :
    (saveSettingsPowerPoint parts s now).countP
        (fun p => containsSub p settingsMarker) = 1
    ∧ (saveSettingsWord parts s now).countP
        (fun p => containsSub p settingsMarker) = 1 := by
  have hcount : ((parts.filter fun p => !(containsSub p settingsMarker))
      ++ [settingsXml s now]).countP (fun p => containsSub p settingsMarker) = 1 := by
    rw [List.countP_append]
    have h0 : (parts.filter fun p => !(containsSub p settingsMarker)).countP
        (fun p => containsSub p settingsMarker) = 0 := by
      rw [List.countP_eq_zero]
      intro p hp
      have := (List.mem_filter.mp hp).2
      simp only [Bool.not_eq_true'] at this
      simp [this]
    rw [h0]
    simp [List.countP_cons, settingsXml_contains_marker s now]
  exact ⟨hcount, hcount⟩
